import Mathlib

/-!
Verification of the request-and-reshape pipeline of the pyenerginet client
(`pyenerginet/base.py`), as a shallow embedding in Lean 4.

Modelling conventions:
* A pandas `Timestamp` is an absolute instant in epoch minutes together with a
  timezone tag.  `tz_convert` changes only the tag (pandas keeps the instant);
  comparisons between timestamps compare instants, as pandas does for
  tz-aware timestamps.  Wall-clock rendering (`strftime`) uses a fixed offset
  table (UTC, CET without the DST shift); no claim depends on the rendered
  wall time, only on which parameters are emitted.
* JSON record values that the code parses with `pd.to_datetime` are modelled
  as already-tokenised cells (`Cell.dt` for the wire timestamp strings,
  `Cell.s` for everything else); `pd.to_datetime` failing on a non-timestamp
  value in a UTC column is modelled as a `valueError`.  `NaT` propagation for
  a record missing a timestamp field is not modelled (no claim depends on it).
* Python exceptions are modelled by `Except PErr`; the constructors are named
  after the Python exception classes that `base.py` actually lets escape.
* The `requests` session always succeeds with a JSON body in the modelled
  fragment (transport errors are out of scope of every claim); the injected
  HTTP capability is an explicit function argument, so the single `get` call
  of `_base_request` is visible in the definitions.
-/

/-- Epoch-minute instant plus timezone tag, the model of `pd.Timestamp`. -/
structure Timestamp where
  minutes : Int
  tz : String
deriving Repr, DecidableEq

/-- One parsed JSON scalar inside a record. -/
inductive Cell where
  | dt (naiveMinutes : Int)
  | s (v : String)
  | nan
deriving Repr, DecidableEq

/-- A Python filter value: `None`, a scalar, or a list of scalars
(scalars are rendered through `str` by the code, so they are kept as
strings here). -/
inductive PyVal where
  | none
  | scalar (v : String)
  | list (vs : List String)
deriving Repr, DecidableEq

/-- An index entry: the first (always present) time level plus the remaining
time levels of a composite index. -/
abbrev IdxT := Timestamp × List Timestamp

/-- A label of a squeezed series: a row (time) label, a flat column name, or a
composite column tuple. -/
inductive Label where
  | time (i : IdxT)
  | name (s : String)
  | tup (t : List String)
deriving Repr, DecidableEq

/-- The Python exceptions that can escape the modelled fragment of the
pipeline. -/
inductive PErr where
  | keyError
  | valueError
  | attributeError
  | indexError
deriving Repr, DecidableEq

/-- The columns axis of a frame: a flat `pd.Index` of names, or a
`pd.MultiIndex` with its declared per-level value sets (`.levels`) and the
per-column label tuples. -/
inductive ColIx where
  | flat (names : List String)
  | multi (levels : List (List String)) (tuples : List (List String))
deriving Repr, DecidableEq

/-- A time-indexed frame: the columns axis plus rows, each row carrying its
index tuple and its cells (aligned with the columns axis). -/
structure Frame where
  colIx : ColIx
  data : List (IdxT × List Cell)
deriving Repr, DecidableEq

/-- A squeezed one-dimensional result. -/
structure Series where
  data : List (Label × Cell)
deriving Repr, DecidableEq

/-- The dynamic result of the pipeline: `DataFrame`, `Series`, or a bare
scalar (what `DataFrame.squeeze()` can produce). -/
inductive PdVal where
  | frame (f : Frame)
  | series (s : Series)
  | scalar (c : Cell)
deriving Repr, DecidableEq

/-- The `columns` argument of the request helpers: the string `"all"`, one
column name, or a list of names (the code distinguishes these by dynamic
type). -/
inductive ColSel where
  | all
  | one (c : String)
  | many (cs : List String)
deriving Repr, DecidableEq

/-- One JSON record, field name to parsed value. -/
abbrev RecordF := List (String × Cell)

/-- The JSON body relevant to the code: `r.json()["records"]` present as a
list, or absent. -/
abbrev Response := Option (List RecordF)

/-- The request parameter set built by `_get_params`. -/
structure ParamSet where
  offset : Nat
  start : String
  stop : String
  filter : Option String
deriving Repr, DecidableEq

/-! ### Wall-clock rendering helpers for `strftime("%Y-%m-%dT%H:%M")` -/

/-- Zero-pad a numeral to two digits. -/
def pad2 (n : Nat) : String :=
  if n < 10 then "0" ++ toString n else toString n

/-- Zero-pad a natural to four digits. -/
def pad4n (n : Nat) : String :=
  if n < 10 then "000" ++ toString n
  else if n < 100 then "00" ++ toString n
  else if n < 1000 then "0" ++ toString n
  else toString n

/-- Zero-pad a year to four digits, with sign. -/
def pad4 (y : Int) : String :=
  if y < 0 then "-" ++ pad4n (-y).toNat else pad4n y.toNat

/-- Civil date from days since 1970-01-01 (standard era-based algorithm). -/
def civilFromDays (z0 : Int) : Int × Nat × Nat :=
  let z := z0 + 719468
  let era := z.fdiv 146097
  let doe := (z - era * 146097).toNat
  let yoe := (doe - doe / 1460 + doe / 36524 - doe / 146096) / 365
  let y := (yoe : Int) + era * 400
  let doy := doe - (365 * yoe + yoe / 4 - yoe / 100)
  let mp := (5 * doy + 2) / 153
  let d := doy - (153 * mp + 2) / 5 + 1
  let m := if mp < 10 then mp + 3 else mp - 9
  (if m ≤ 2 then y + 1 else y, m, d)

/-- Render wall-clock minutes since epoch as `%Y-%m-%dT%H:%M`. -/
def strfMinutes (totalMin : Int) : String :=
  let day := totalMin.fdiv 1440
  let rest := (totalMin - day * 1440).toNat
  let c := civilFromDays day
  pad4 c.1 ++ "-" ++ pad2 c.2.1 ++ "-" ++ pad2 c.2.2 ++ "T" ++
    pad2 (rest / 60) ++ ":" ++ pad2 (rest % 60)

/-- Fixed minute offsets of the zone tags used by the library (DST shift not
modelled; no claim depends on the rendered wall time). -/
def tzOffsetMin (tz : String) : Int :=
  if tz = "CET" then 60 else 0

/-- `pd.Timestamp.tz_convert`: the instant is unchanged, only the tag moves. -/
def Timestamp.tzConvert (t : Timestamp) (tz : String) : Timestamp :=
  ⟨t.minutes, tz⟩

/-- `ts.tz_convert("CET").strftime("%Y-%m-%dT%H:%M")`. -/
def strfCET (t : Timestamp) : String :=
  strfMinutes ((t.tzConvert "CET").minutes + tzOffsetMin "CET")

/-! ### `_get_params` (QueryBuilder) -/

/-- `sep.join(xs)` of Python. -/
def joinSep (sep : String) : List String → String
  | [] => ""
  | [x] => x
  | x :: y :: xs => x ++ sep ++ joinSep sep (y :: xs)

/-- The serialized form of one filter entry, from the f-string
building a quoted key, a colon, and a bracketed quote-comma-quote joined
value list. -/
def filterEntry (k : String) (vs : List String) : String :=
  "\"" ++ k ++ "\":[\"" ++ joinSep "\",\"" vs ++ "\"]"

/-- The list comprehension body of `_get_params`: each non-`None` value is
wrapped into a list if it is a scalar, then serialized. -/
def filterPieces (filters : List (String × PyVal)) : List String :=
  filters.filterMap fun kv =>
    match kv.2 with
    | PyVal.none => Option.none
    | PyVal.scalar v => some (filterEntry kv.1 [v])
    | PyVal.list vs => some (filterEntry kv.1 vs)

/-- `_get_params` of `EnerginetBaseClass`: offset `0`, CET minute-precision
bounds, and the optional structured filter parameter. -/
def getParams (start stop : Timestamp) (filters : List (String × PyVal)) :
    ParamSet :=
  let filterList := filterPieces filters
  { offset := 0
    start := strfCET start
    stop := strfCET stop
    filter :=
      if filterList.length ≠ 0 then
        some ("\x7b" ++ joinSep "," filterList ++ "\x7d")
      else Option.none }

/-- Modelled from the spec: the semantic content of the filter, one entry
per non-`None` key, a scalar treated as a one-element array of permitted
values. -/
def specEntries (filters : List (String × PyVal)) :
    List (String × List String) :=
  filters.filterMap fun kv =>
    match kv.2 with
    | PyVal.none => Option.none
    | PyVal.scalar v => some (kv.1, [v])
    | PyVal.list vs => some (kv.1, vs)

/-- Modelled from the spec: one field of the JSON-like object, the field
name mapped to the array of its permitted string values. -/
def renderEntry (ent : String × List String) : String :=
  "\"" ++ ent.1 ++ "\":[" ++
    joinSep "," (ent.2.map (fun v => "\"" ++ v ++ "\"")) ++ "]"

/-- Modelled from the spec: the structured filter expression as the spec
words it, a JSON-like object mapping each filter field name to the array of
its permitted string values, a scalar being treated as a one-element array,
`None` entries contributing nothing, and no parameter at all when no
non-`None` entry exists.  Used only to compare against `getParams`. -/
def specFilterObject (filters : List (String × PyVal)) : Option String :=
  if (specEntries filters).isEmpty then Option.none
  else
    some ("\x7b" ++ joinSep "," ((specEntries filters).map renderEntry) ++
      "\x7d")

/-! ### `_base_request` -/

/-- Whether `pat` is a prefix of the character list. -/
def prefixAt : List Char → List Char → Bool
  | [], _ => true
  | _ :: _, [] => false
  | p :: ps, c :: cs => p = c && prefixAt ps cs

/-- Whether `pat` occurs anywhere in the character list. -/
def containsSub (pat : List Char) : List Char → Bool
  | [] => pat.isEmpty
  | c :: cs => prefixAt pat (c :: cs) || containsSub pat cs

/-- `"UTC" in col` of Python. -/
def hasUTC (col : String) : Bool :=
  containsSub "UTC".data col.data

/-- Left-to-right, non-overlapping replacement on character lists, with the
list length as structural fuel (one pattern occurrence consumes at least one
character, so the fuel always suffices). -/
def replaceFuel (pat rep : List Char) : Nat → List Char → List Char
  | 0, l => l
  | _ + 1, [] => []
  | n + 1, c :: cs =>
    if prefixAt pat (c :: cs) then
      rep ++ replaceFuel pat rep n (cs.drop (pat.length - 1))
    else c :: replaceFuel pat rep n cs

/-- `col.replace("UTC", "DK")` of Python. -/
def replaceUTCDK (col : String) : String :=
  ⟨replaceFuel "UTC".data "DK".data col.data.length col.data⟩

/-- Column order of `pd.DataFrame(records)`: union of the record keys in
order of first appearance. -/
def unionKeys (records : List RecordF) : List String :=
  records.foldl
    (fun acc r =>
      r.foldl (fun acc2 kv => if kv.1 ∈ acc2 then acc2 else acc2 ++ [kv.1]) acc)
    []

/-- Lexicographic minute-wise comparison of index tuples, the order
`sort_index` sorts by (tz-aware timestamps compare by instant). -/
def lexLeMin : List Int → List Int → Bool
  | [], _ => true
  | _ :: _, [] => false
  | a :: as, b :: bs =>
      if a < b then true else if a = b then lexLeMin as bs else false

/-- Comparison of two rows by their full index tuple. -/
def rowLe (a b : IdxT × List Cell) : Bool :=
  lexLeMin (a.1.1.minutes :: a.1.2.map Timestamp.minutes)
    (b.1.1.minutes :: b.1.2.map Timestamp.minutes)

/-- Stable insertion of a row into a sorted row list. -/
def insertRow (a : IdxT × List Cell) :
    List (IdxT × List Cell) → List (IdxT × List Cell)
  | [] => [a]
  | b :: bs => if rowLe a b then a :: b :: bs else b :: insertRow a bs

/-- `df.sort_index()`: stable sort of the rows by index tuple. -/
def sortRows : List (IdxT × List Cell) → List (IdxT × List Cell)
  | [] => []
  | a :: as => insertRow a (sortRows as)

/-- `pd.to_datetime(...).dt.tz_localize("UTC")` applied to one cell of a UTC
column: the naive wire value is tagged as UTC; a non-timestamp value or a
missing field makes the conversion fail. -/
def cellToTs (c : Option Cell) : Except PErr Timestamp :=
  match c with
  | some (Cell.dt m) => Except.ok ⟨m, "UTC"⟩
  | _ => Except.error PErr.valueError

/-- The index tuple of one record, from the UTC columns in order. -/
def idxOfRecord (timeCols : List String) (r : RecordF) :
    Except PErr (List Timestamp) :=
  match timeCols with
  | [] => Except.error PErr.valueError
  | _ =>
    timeCols.foldr
      (fun c acc => do
        let t ← cellToTs (r.lookup c)
        let ts ← acc
        pure (t :: ts))
      (Except.ok [])

/-- Turn record index tuples into `IdxT` (head level plus rest). -/
def toIdxT (ts : List Timestamp) : IdxT :=
  (ts.headD ⟨0, "UTC"⟩, ts.tail)

/-- The characters after the first double quote, when one exists. -/
def afterFirstQuote : List Char → Option (List Char)
  | [] => Option.none
  | c :: cs => if c = '\"' then some cs else afterFirstQuote cs

/-- The characters before the next double quote. -/
def takeUntilQuote : List Char → List Char
  | [] => []
  | c :: cs => if c = '\"' then [] else c :: takeUntilQuote cs

/-- The first quoted name inside the filter string,
`re.findall(r enclosed-quotes)(params["filter"])[0]`: the content between
the first pair of double quotes; `none` (no complete quoted group) models
the `IndexError` of indexing an empty match list. -/
def firstQuoted (fs : String) : Option String :=
  match afterFirstQuote fs.data with
  | Option.none => Option.none
  | some rest =>
    if rest.contains '\"' then some ⟨takeUntilQuote rest⟩ else Option.none

/-- The index tuples of all records (the `pd.to_datetime` loop over the UTC
columns). -/
def collectIdxs (timeCols : List String) :
    List RecordF → Except PErr (List (List Timestamp))
  | [] => Except.ok []
  | r :: rs =>
    match idxOfRecord timeCols r with
    | Except.error e => Except.error e
    | Except.ok i =>
      match collectIdxs timeCols rs with
      | Except.error e => Except.error e
      | Except.ok is => Except.ok (i :: is)

/-- The value columns left after `set_index(..., drop=True)`, the local-time
drop, and the filter-key drop; errors model the `KeyError`/`IndexError` the
corresponding pandas calls raise. -/
def finalValCols (cols timeCols dkCols : List String)
    (filterParam : Option String) : Except PErr (List String) :=
  let rem1 := cols.filter (fun c => c ∉ timeCols)
  -- .drop(columns=dk_time_cols) raises when a local-time column is absent
  if !(dkCols.all (fun d => d ∈ rem1)) then Except.error PErr.keyError
  else
    let rem2 := rem1.filter (fun c => c ∉ dkCols)
    match filterParam with
    | Option.none => Except.ok rem2
    | some fs =>
      match firstQuoted fs with
      | Option.none => Except.error PErr.indexError
      | some k =>
        if k ∈ rem2 then Except.ok (rem2.filter (fun c => c ≠ k))
        else Except.error PErr.keyError

/-- `_base_request` of `EnerginetBaseClass` after the HTTP call: parse the
`records` envelope, derive the UTC time index, drop the redundant local-time
columns, drop the first filter key column when a filter parameter was sent,
and sort by index.  Absent `records` raises (`KeyError`); no UTC column makes
`set_index([])` raise (`ValueError`); dropping an absent column raises
(`KeyError`). -/
def parseBody (resp : Response) (params : ParamSet) : Except PErr Frame :=
  match resp with
  | Option.none => Except.error PErr.keyError
  | some records =>
    let cols := unionKeys records
    let timeCols := cols.filter (fun c => hasUTC c)
    let dkCols := timeCols.map (fun c => replaceUTCDK c)
    match collectIdxs timeCols records with
    | Except.error e => Except.error e
    | Except.ok idxs =>
      -- set_index(time_cols, drop=True) on an empty key list raises
      if timeCols.isEmpty then Except.error PErr.valueError
      else
        match finalValCols cols timeCols dkCols params.filter with
        | Except.error e => Except.error e
        | Except.ok valCols =>
          let data := idxs.zip
            (records.map (fun r => valCols.map (fun c => (r.lookup c).getD Cell.nan)))
          Except.ok ⟨ColIx.flat valCols,
            sortRows (data.map (fun p => (toIdxT p.1, p.2)))⟩

/-- `_base_request`: one `session.get(url, params)` through the injected HTTP
capability, then parsing (`raise_for_status` transport failures are outside
the modelled fragment: every modelled response is a 2xx JSON body). -/
def baseRequest (http : String → ParamSet → Response) (url : String)
    (params : ParamSet) : Except PErr Frame :=
  parseBody (http url params) params

/-! ### `_select_columns_request` -/

/-- `df.tz_convert(start.tz, level=level)` with `level = 0` on a MultiIndex
and `level=None` (the only level) otherwise: in both cases the first index
level gets the new tag; further time levels keep UTC. -/
def tzConvertL0 (f : Frame) (tz : String) : Frame :=
  ⟨f.colIx, f.data.map (fun d => ((⟨d.1.1.minutes, tz⟩, d.1.2), d.2))⟩

/-- `df.truncate(start, end)`: raises `ValueError` when `before` is after
`after`; otherwise keeps the rows whose first index level lies in the closed
interval (pandas compares the instants). -/
def truncateF (f : Frame) (before after : Timestamp) : Except PErr Frame :=
  if after.minutes < before.minutes then Except.error PErr.valueError
  else
    Except.ok ⟨f.colIx,
      f.data.filter (fun d =>
        before.minutes ≤ d.1.1.minutes && d.1.1.minutes ≤ after.minutes)⟩

/-- Number of columns of the axis. -/
def ColIx.len : ColIx → Nat
  | ColIx.flat ns => ns.length
  | ColIx.multi _ ts => ts.length

/-- The column labels as series labels. -/
def ColIx.labels : ColIx → List Label
  | ColIx.flat ns => ns.map Label.name
  | ColIx.multi _ ts => ts.map Label.tup

/-- The level-0 key of each column (what `df[name]` selects by). -/
def ColIx.keys : ColIx → List String
  | ColIx.flat ns => ns
  | ColIx.multi _ ts => ts.map (fun t => t.headD "")

/-- `name in df.columns`: flat membership, or membership in the declared
level-0 values of a MultiIndex (pandas partial containment). -/
def ColIx.hasCol : ColIx → String → Bool
  | ColIx.flat ns, c => c ∈ ns
  | ColIx.multi ls _, c => c ∈ ls.headD []

/-- `DataFrame.squeeze()` (axis=None): a 1x1 frame becomes a scalar, a
one-column frame a row-labelled series, a one-row frame a column-labelled
series. -/
def Frame.squeeze (f : Frame) : PdVal :=
  if f.colIx.len = 1 ∧ f.data.length = 1 then
    PdVal.scalar (((f.data.headD (toIdxT [], [])).2).headD Cell.nan)
  else if f.colIx.len = 1 then
    PdVal.series ⟨f.data.map (fun d => (Label.time d.1, d.2.headD Cell.nan))⟩
  else if f.data.length = 1 then
    PdVal.series ⟨f.colIx.labels.zip (f.data.headD (toIdxT [], [])).2⟩
  else PdVal.frame f

/-- `Series.squeeze()`: a length-1 series becomes a scalar. -/
def Series.squeeze (s : Series) : PdVal :=
  match s.data with
  | [d] => PdVal.scalar d.2
  | _ => PdVal.series s

/-- `.squeeze()` on the dynamic result. -/
def PdVal.squeeze : PdVal → PdVal
  | PdVal.frame f => f.squeeze
  | PdVal.series s => s.squeeze
  | PdVal.scalar c => PdVal.scalar c

/-- The column positions whose level-0 key equals `c`. -/
def selPositions (ix : ColIx) (c : String) : List Nat :=
  (ix.keys.enum.filter (fun p => p.2 = c)).map (fun p => p.1)

/-- `df[c]` for a single name: a series on a flat axis, a frame with the
level dropped on a MultiIndex; `KeyError` when absent.  (Base frames have
unique column names, so on a flat axis the first matching position is the
column.) -/
def selectOne (f : Frame) (c : String) : Except PErr PdVal :=
  if (selPositions f.colIx c).isEmpty then Except.error PErr.keyError
  else
    match f.colIx with
    | ColIx.flat _ =>
      Except.ok (PdVal.series
        ⟨f.data.map (fun d =>
          (Label.time d.1,
           d.2.getD ((selPositions f.colIx c).headD 0) Cell.nan))⟩)
    | ColIx.multi ls ts =>
      Except.ok (PdVal.frame
        ⟨if ls.tail.length = 1 then
            ColIx.flat (((selPositions f.colIx c).map
              (fun p => (ts.getD p []).tail)).map (fun t => t.headD ""))
          else
            ColIx.multi ls.tail ((selPositions f.colIx c).map
              (fun p => (ts.getD p []).tail)),
         f.data.map (fun d =>
           (d.1, (selPositions f.colIx c).map (fun p => d.2.getD p Cell.nan)))⟩)

/-- `df[cs]` for a list of names: a frame with the columns in the requested
order; `KeyError` when any name is absent.  On a MultiIndex the full label
tuples (and the declared levels, stale values included) are kept. -/
def selectMany (f : Frame) (cs : List String) : Except PErr PdVal :=
  if !(cs.all (fun c => !(selPositions f.colIx c).isEmpty)) then
    Except.error PErr.keyError
  else
    Except.ok (PdVal.frame
      ⟨match f.colIx with
        | ColIx.flat ns =>
          ColIx.flat ((cs.flatMap (fun c => selPositions f.colIx c)).map
            (fun p => ns.getD p ""))
        | ColIx.multi ls ts =>
          ColIx.multi ls ((cs.flatMap (fun c => selPositions f.colIx c)).map
            (fun p => ts.getD p [])),
       f.data.map (fun d =>
         (d.1, (cs.flatMap (fun c => selPositions f.colIx c)).map
           (fun p => d.2.getD p Cell.nan)))⟩)

/-- `df[columns]` dispatch on the dynamic type of `columns`. -/
def selectCols (f : Frame) : ColSel → Except PErr PdVal
  | ColSel.all => Except.ok (PdVal.frame f)
  | ColSel.one c => selectOne f c
  | ColSel.many cs => selectMany f cs

/-- `_select_columns_request`: build the parameters, perform the request and
parse, convert the first index level to the zone of `start`, truncate to the
closed range, subset columns when asked, and squeeze. -/
def selectColumnsRequest (http : String → ParamSet → Response) (url : String)
    (start stop : Timestamp) (columns : ColSel)
    (filters : List (String × PyVal)) : Except PErr PdVal :=
  match baseRequest http url (getParams start stop filters) with
  | Except.error e => Except.error e
  | Except.ok df0 =>
    match truncateF (tzConvertL0 df0 start.tz) start stop with
    | Except.error e => Except.error e
    | Except.ok df2 =>
      match selectCols df2 columns with
      | Except.error e => Except.error e
      | Except.ok v => Except.ok v.squeeze

/-! ### `_pivot_request` -/

/-- How a cell prints as a pivot column label (the pivot keys hold string
values in every endpoint). -/
def cellStr : Cell → String
  | Cell.s v => v
  | Cell.dt m => toString m
  | Cell.nan => "nan"

/-- Line `pivot_keys = [key for key in list(filters.keys()) if key in
df.columns]` of `_pivot_request`. -/
def pivotKeys (filters : List (String × PyVal)) (ix : ColIx) : List String :=
  (filters.map Prod.fst).filter (fun k => ix.hasCol k)

/-- `df.pivot(columns=pivot_keys)`: the remaining value columns become
level 0 of a column MultiIndex over the observed pivot-value combinations;
rows with the same index merge, absent combinations yield NaN.  The declared
levels are the level-0 value-column names and the per-key observed values
(pandas additionally sorts the level values; only their count matters here).
Pandas raises on duplicate (index, combination) pairs; the model keeps the
first match, no claim exercising duplicates. -/
def pivotF (f : Frame) (keys : List String) : Frame :=
  match f.colIx with
  | ColIx.multi _ _ => f
  | ColIx.flat names =>
    let kPos := keys.filterMap
      (fun k => (names.enum.find? (fun p => p.2 = k)).map (fun p => p.1))
    let vPos := names.enum.filter (fun p => p.2 ∉ keys)
    let comboOf := fun (r : List Cell) =>
      kPos.map (fun p => cellStr (r.getD p Cell.nan))
    let combos := (f.data.map (fun d => comboOf d.2)).dedup
    let levels := vPos.map Prod.snd ::
      (List.range keys.length).map
        (fun j => (combos.map (fun cb => cb.getD j "")).dedup)
    let tuples := vPos.flatMap (fun vp => combos.map (fun cb => vp.2 :: cb))
    let newIdx := (f.data.map Prod.fst).dedup
    let cellAt := fun (ix : IdxT) (vp : Nat) (cb : List String) =>
      match f.data.find? (fun d => d.1 = ix ∧ comboOf d.2 = cb) with
      | some d => d.2.getD vp Cell.nan
      | Option.none => Cell.nan
    let newData := newIdx.map (fun ix =>
      (ix, vPos.flatMap (fun vp => combos.map (fun cb => cellAt ix vp.1 cb))))
    ⟨ColIx.multi levels tuples, newData⟩

/-- `df.droplevel(i, axis=1)`: the level is removed from the declared levels
and from every column tuple; when a single level remains the columns become
a flat `pd.Index` of its per-column labels. -/
def dropLevelIx (ls : List (List String)) (ts : List (List String)) (i : Nat) :
    ColIx :=
  let ls2 := ls.eraseIdx i
  let ts2 := ts.map (fun t => t.eraseIdx i)
  if ls2.length = 1 then ColIx.flat (ts2.map (fun t => t.headD ""))
  else ColIx.multi ls2 ts2

/-- The loop `for i in range(len(df.columns.levels)): if
len(df.columns.levels[i]) == 1: df = df.droplevel(i, axis=1)`: the range is
fixed once, but the condition re-reads the mutated frame, so a drop shifts
the remaining levels — accessing `.levels` after the columns collapsed to a
flat `Index` raises `AttributeError`, and an index beyond the remaining
level count raises `IndexError`. -/
def collapseLoop (f : Frame) : List Nat → Except PErr Frame
  | [] => Except.ok f
  | i :: rest =>
    match f.colIx with
    | ColIx.flat _ => Except.error PErr.attributeError
    | ColIx.multi ls ts =>
      if ls.length ≤ i then Except.error PErr.indexError
      else if (ls.getD i []).length = 1 then
        collapseLoop ⟨dropLevelIx ls ts i, f.data⟩ rest
      else collapseLoop f rest

/-- The "make sure there is no useless multiindex" block of `_pivot_request`
(guarded by the two isinstance checks). -/
def collapseMulti (v : PdVal) : Except PErr PdVal :=
  match v with
  | PdVal.frame f =>
    match f.colIx with
    | ColIx.multi ls _ => do
      let f2 ← collapseLoop f (List.range ls.length)
      pure (PdVal.frame f2)
    | ColIx.flat _ => Except.ok v
  | _ => Except.ok v

/-- `_pivot_request`: fetch the full table, pivot around the filter keys
still present as columns, subset the requested columns, collapse singleton
column levels, and squeeze.  When the full fetch already squeezed the table
to a series the pivot and the column subset are skipped entirely. -/
def pivotRequest (http : String → ParamSet → Response) (url : String)
    (start stop : Timestamp) (columns : ColSel)
    (filters : List (String × PyVal)) : Except PErr PdVal :=
  match selectColumnsRequest http url start stop ColSel.all filters with
  | Except.error e => Except.error e
  | Except.ok d =>
    match
      (match d with
       | PdVal.frame f =>
         let pks := pivotKeys filters f.colIx
         let f2 := if !pks.isEmpty then pivotF f pks else f
         (match columns with
          | ColSel.all => Except.ok (PdVal.frame f2)
          | _ => selectCols f2 columns)
       | other => Except.ok other) with
    | Except.error e => Except.error e
    | Except.ok d2 =>
      match collapseMulti d2 with
      | Except.error e => Except.error e
      | Except.ok d3 => Except.ok d3.squeeze

/-! ### Observation helpers used by the claim statements -/

/-- The time labels of a result: the index of a frame, the row labels of a
series, nothing for a scalar. -/
def tIdx : PdVal → List IdxT
  | PdVal.frame f => f.data.map Prod.fst
  | PdVal.series s => s.data.filterMap (fun d =>
      match d.1 with
      | Label.time i => some i
      | _ => Option.none)
  | PdVal.scalar _ => []

/-- Every timestamp occurring in the index of a frame, all levels. -/
def idxTimestamps (f : Frame) : List Timestamp :=
  f.data.flatMap (fun d => d.1.1 :: d.1.2)

/-- The spec name `MalformedResponseError` covers the exceptions the code
raises while parsing the envelope (`KeyError` for a missing `records`,
`ValueError` from building the time index). -/
def MalformedResponse (e : PErr) : Prop :=
  e = PErr.keyError ∨ e = PErr.valueError

/-- Result-shape discriminators. -/
def PdVal.isFrame : PdVal → Bool
  | PdVal.frame _ => true
  | _ => false

/-- Whether a result is a flat series. -/
def PdVal.isSeries : PdVal → Bool
  | PdVal.series _ => true
  | _ => false

/-- Whether a result is a bare scalar. -/
def PdVal.isScalar : PdVal → Bool
  | PdVal.scalar _ => true
  | _ => false

/-- A value the spec comparison covers exactly: anything except the
degenerate empty list (see the C7 counterexample). -/
def wellFormed : PyVal → Bool
  | PyVal.list vs => !vs.isEmpty
  | _ => true

/-! ### Concrete HTTP stubs and their parsed frames, used as witnesses -/

/-- A stub endpoint with two UTC timestamp columns (the forecasts shape):
the second timestamp lies far outside any requested range. -/
def httpC1 : String → ParamSet → Response := fun _ _ =>
  some [
    [("HourUTC", Cell.dt 60), ("HourDK", Cell.dt 120),
     ("TimestampUTC", Cell.dt (-500)), ("TimestampDK", Cell.dt (-440)),
     ("A", Cell.s "1"), ("B", Cell.s "2")],
    [("HourUTC", Cell.dt 0), ("HourDK", Cell.dt 60),
     ("TimestampUTC", Cell.dt (-400)), ("TimestampDK", Cell.dt (-340)),
     ("A", Cell.s "3"), ("B", Cell.s "4")]]

/-- The table `httpC1` yields for the range 0..120 CET. -/
def c1Frame : Frame :=
  ⟨ColIx.flat ["A", "B"],
   [((⟨0, "CET"⟩, [⟨-400, "UTC"⟩]), [Cell.s "3", Cell.s "4"]),
    ((⟨60, "CET"⟩, [⟨-500, "UTC"⟩]), [Cell.s "1", Cell.s "2"])]⟩

/-- A stub endpoint returning a single record with a single value column. -/
def httpC2 : String → ParamSet → Response := fun _ _ =>
  some [[("HourUTC", Cell.dt 0), ("HourDK", Cell.dt 60), ("A", Cell.s "5")]]

/-- The one-by-one table `httpC2` yields for the range 0..60 CET. -/
def c2Frame : Frame :=
  ⟨ColIx.flat ["A"], [((⟨0, "CET"⟩, []), [Cell.s "5"])]⟩

/-- A one-column, two-row frame. -/
def oneColFrame : Frame :=
  ⟨ColIx.flat ["A"],
   [((⟨0, "CET"⟩, []), [Cell.s "1"]), ((⟨60, "CET"⟩, []), [Cell.s "2"])]⟩

/-- A one-row, two-column frame. -/
def oneRowFrame : Frame :=
  ⟨ColIx.flat ["A", "B"], [((⟨0, "CET"⟩, []), [Cell.s "1", Cell.s "2"])]⟩

/-- A stub of the CO2 emission endpoint: one value column, two price
areas. -/
def httpCO2 : String → ParamSet → Response := fun _ _ =>
  some [
    [("Minutes5UTC", Cell.dt 0), ("Minutes5DK", Cell.dt 60),
     ("PriceArea", Cell.s "DK1"), ("CO2Emission", Cell.s "100")],
    [("Minutes5UTC", Cell.dt 0), ("Minutes5DK", Cell.dt 60),
     ("PriceArea", Cell.s "DK2"), ("CO2Emission", Cell.s "120")],
    [("Minutes5UTC", Cell.dt 60), ("Minutes5DK", Cell.dt 120),
     ("PriceArea", Cell.s "DK1"), ("CO2Emission", Cell.s "90")],
    [("Minutes5UTC", Cell.dt 60), ("Minutes5DK", Cell.dt 120),
     ("PriceArea", Cell.s "DK2"), ("CO2Emission", Cell.s "80")]]

/-- A stub of the renewables forecast endpoint, already filtered by the API
to one price area and one technology (the columns still arrive). -/
def httpRF : String → ParamSet → Response := fun _ _ =>
  some [
    [("HourUTC", Cell.dt 0), ("HourDK", Cell.dt 60),
     ("PriceArea", Cell.s "DK1"), ("ForecastType", Cell.s "Offshore Wind"),
     ("ForecastCurrent", Cell.s "5"), ("ForecastDayAhead", Cell.s "6")],
    [("HourUTC", Cell.dt 60), ("HourDK", Cell.dt 120),
     ("PriceArea", Cell.s "DK1"), ("ForecastType", Cell.s "Offshore Wind"),
     ("ForecastCurrent", Cell.s "7"), ("ForecastDayAhead", Cell.s "8")]]

/-- Two request-time filters at once, as `get_res_forecast` builds them. -/
def rfFilters : List (String × PyVal) :=
  [("PriceArea", PyVal.scalar "DK1"),
   ("ForecastType", PyVal.scalar "Offshore Wind")]

/-- The table `httpRF` yields under `rfFilters`: only the first filter key
column was dropped. -/
def rfFrame : Frame :=
  ⟨ColIx.flat ["ForecastType", "ForecastCurrent", "ForecastDayAhead"],
   [((⟨0, "CET"⟩, []), [Cell.s "Offshore Wind", Cell.s "5", Cell.s "6"]),
    ((⟨60, "CET"⟩, []), [Cell.s "Offshore Wind", Cell.s "7", Cell.s "8"])]⟩

/-- A stub endpoint carrying both filter discriminator columns `A` and
`B`. -/
def httpC5 : String → ParamSet → Response := fun _ _ =>
  some [
    [("HourUTC", Cell.dt 0), ("HourDK", Cell.dt 60),
     ("A", Cell.s "x"), ("B", Cell.s "y"), ("Val", Cell.s "7")],
    [("HourUTC", Cell.dt 60), ("HourDK", Cell.dt 120),
     ("A", Cell.s "x"), ("B", Cell.s "y"), ("Val", Cell.s "8")]]

/-- The parameters of a two-key filtered request. -/
def c5Params : ParamSet :=
  getParams ⟨0, "CET"⟩ ⟨60, "CET"⟩
    [("A", PyVal.scalar "x"), ("B", PyVal.scalar "y")]

/-- The frame `httpC5` parses to under `c5Params`: the column `B` survives
although the filter names it. -/
def c5Frame : Frame :=
  ⟨ColIx.flat ["B", "Val"],
   [((⟨0, "UTC"⟩, []), [Cell.s "y", Cell.s "7"]),
    ((⟨60, "UTC"⟩, []), [Cell.s "y", Cell.s "8"])]⟩

/-- A stub endpoint with one spot-price record at instant 0. -/
def httpC6 : String → ParamSet → Response := fun _ _ =>
  some [[("HourUTC", Cell.dt 0), ("HourDK", Cell.dt 60),
         ("SpotPriceDKK", Cell.s "10")]]

/-- The frame `httpC6` parses to. -/
def c6Frame : Frame :=
  ⟨ColIx.flat ["SpotPriceDKK"], [((⟨0, "UTC"⟩, []), [Cell.s "10"])]⟩

/-- A stub of the CO2 endpoint already filtered to one area: the full fetch
squeezes to a series. -/
def httpC9 : String → ParamSet → Response := fun _ _ =>
  some [
    [("Minutes5UTC", Cell.dt 0), ("Minutes5DK", Cell.dt 60),
     ("PriceArea", Cell.s "DK1"), ("CO2Emission", Cell.s "100")],
    [("Minutes5UTC", Cell.dt 60), ("Minutes5DK", Cell.dt 120),
     ("PriceArea", Cell.s "DK1"), ("CO2Emission", Cell.s "90")]]

/-- The series the `httpC9` fetch squeezes to. -/
def c9Series : PdVal :=
  PdVal.series
    ⟨[(Label.time (⟨0, "CET"⟩, []), Cell.s "100"),
      (Label.time (⟨60, "CET"⟩, []), Cell.s "90")]⟩

/-- A stub whose body has no `records` list. -/
def httpNone : String → ParamSet → Response := fun _ _ => Option.none

/-- A representative well-formed filter mapping. -/
def fsC7 : List (String × PyVal) :=
  [("PriceArea", PyVal.scalar "DK1"), ("X", PyVal.none),
   ("ForecastType", PyVal.list ["Solar", "Offshore Wind"])]

/-! ### Order lemmas for the sort of `_base_request` -/

theorem lexLeMin_total (a : List Int) :
    ∀ b, lexLeMin a b = true ∨ lexLeMin b a = true := by
  induction a with
  | nil => intro b; left; rfl
  | cons x xs ih =>
    intro b
    cases b with
    | nil => right; rfl
    | cons y ys =>
      by_cases hxy : x < y
      · left; simp [lexLeMin, hxy]
      · by_cases hyx : y < x
        · right; simp [lexLeMin, hyx]
        · have heq : x = y := le_antisymm (not_lt.mp hyx) (not_lt.mp hxy)
          subst heq
          rcases ih ys with h | h
          · left; simp [lexLeMin, h]
          · right; simp [lexLeMin, h]

theorem lexLeMin_trans (a : List Int) :
    ∀ b c, lexLeMin a b = true → lexLeMin b c = true → lexLeMin a c = true := by
  induction a with
  | nil => intro b c _ _; rfl
  | cons x xs ih =>
    intro b c hab hbc
    cases b with
    | nil => simp [lexLeMin] at hab
    | cons y ys =>
      cases c with
      | nil => simp [lexLeMin] at hbc
      | cons z zs =>
        simp only [lexLeMin] at hab hbc ⊢
        by_cases hxy : x < y
        · by_cases hyz : y < z
          · simp [show x < z from lt_trans hxy hyz]
          · simp only [if_neg hyz] at hbc
            by_cases hyz2 : y = z
            · subst hyz2; simp [hxy]
            · simp [hyz2] at hbc
        · simp only [if_neg hxy] at hab
          by_cases hxy2 : x = y
          · subst hxy2
            simp only [if_pos rfl] at hab
            by_cases hxz : x < z
            · simp [hxz]
            · simp only [if_neg hxz]
              by_cases hyz : x < z
              · exact absurd hyz hxz
              · simp only [if_neg hyz] at hbc
                by_cases hxz2 : x = z
                · simp only [if_pos hxz2]
                  subst hxz2
                  simp only [if_neg hxz, if_pos rfl] at hbc ⊢
                  exact ih ys zs hab hbc
                · simp [hxz2] at hbc ⊢
          · simp [hxy2] at hab

theorem lexLeMin_head {x y : Int} {xs ys : List Int}
    (h : lexLeMin (x :: xs) (y :: ys) = true) : x ≤ y := by
  simp only [lexLeMin] at h
  by_cases hxy : x < y
  · exact le_of_lt hxy
  · simp only [if_neg hxy] at h
    by_cases hxy2 : x = y
    · exact le_of_eq hxy2
    · simp [hxy2] at h

theorem rowLe_total (a b : IdxT × List Cell) :
    rowLe a b = true ∨ rowLe b a = true :=
  lexLeMin_total _ _

theorem rowLe_trans {a b c : IdxT × List Cell}
    (hab : rowLe a b = true) (hbc : rowLe b c = true) : rowLe a c = true :=
  lexLeMin_trans _ _ _ hab hbc

theorem rowLe_head {a b : IdxT × List Cell} (h : rowLe a b = true) :
    a.1.1.minutes ≤ b.1.1.minutes :=
  lexLeMin_head h

theorem mem_insertRow {x a : IdxT × List Cell} :
    ∀ {l : List (IdxT × List Cell)}, x ∈ insertRow a l → x = a ∨ x ∈ l := by
  intro l
  induction l with
  | nil => intro h; simp [insertRow] at h; exact Or.inl h
  | cons b bs ih =>
    intro h
    simp only [insertRow] at h
    by_cases hc : rowLe a b = true
    · rw [if_pos hc] at h
      rcases List.mem_cons.mp h with h1 | h1
      · exact Or.inl h1
      · exact Or.inr h1
    · rw [if_neg hc] at h
      rcases List.mem_cons.mp h with h1 | h1
      · exact Or.inr (h1 ▸ List.mem_cons_self b bs)
      · rcases ih h1 with h2 | h2
        · exact Or.inl h2
        · exact Or.inr (List.mem_cons_of_mem b h2)

theorem mem_sortRows {x : IdxT × List Cell} :
    ∀ {l : List (IdxT × List Cell)}, x ∈ sortRows l → x ∈ l := by
  intro l
  induction l with
  | nil => intro h; simp [sortRows] at h
  | cons a as ih =>
    intro h
    simp only [sortRows] at h
    rcases mem_insertRow h with h1 | h1
    · exact h1 ▸ List.mem_cons_self a as
    · exact List.mem_cons_of_mem a (ih h1)

theorem pairwise_insertRow {a : IdxT × List Cell}
    {l : List (IdxT × List Cell)}
    (hl : l.Pairwise (fun p q => rowLe p q = true)) :
    (insertRow a l).Pairwise (fun p q => rowLe p q = true) := by
  induction l with
  | nil => simp [insertRow]
  | cons b bs ih =>
    simp only [insertRow]
    rcases List.pairwise_cons.mp hl with ⟨hb, hbs⟩
    by_cases hc : rowLe a b = true
    · rw [if_pos hc]
      refine List.pairwise_cons.mpr ⟨?_, hl⟩
      intro q hq
      rcases List.mem_cons.mp hq with h1 | h1
      · exact h1 ▸ hc
      · exact rowLe_trans hc (hb q h1)
    · rw [if_neg hc]
      refine List.pairwise_cons.mpr ⟨?_, ih hbs⟩
      intro q hq
      rcases mem_insertRow hq with h1 | h1
      · rcases rowLe_total a b with h2 | h2
        · exact absurd h2 hc
        · exact h1 ▸ h2
      · exact hb q h1

theorem pairwise_sortRows (l : List (IdxT × List Cell)) :
    (sortRows l).Pairwise (fun p q => rowLe p q = true) := by
  induction l with
  | nil => simp [sortRows]
  | cons a as ih => exact pairwise_insertRow ih

/-! ### Squeeze lemmas -/

/-- `.squeeze()` of a one-column frame with several (or zero) rows: the flat
time-indexed series of that column. -/
theorem squeeze_one_col {f : Frame} (h1 : f.colIx.len = 1)
    (h2 : f.data.length ≠ 1) :
    f.squeeze =
      PdVal.series ⟨f.data.map (fun d => (Label.time d.1, d.2.headD Cell.nan))⟩ := by
  unfold Frame.squeeze
  rw [if_neg (by tauto), if_pos h1]

/-- `.squeeze()` of a one-by-one frame: a bare scalar. -/
theorem squeeze_one_one {f : Frame} (h1 : f.colIx.len = 1)
    (h2 : f.data.length = 1) :
    f.squeeze =
      PdVal.scalar (((f.data.headD (toIdxT [], [])).2).headD Cell.nan) := by
  unfold Frame.squeeze
  rw [if_pos ⟨h1, h2⟩]

/-- `.squeeze()` of a one-row frame with several (or zero) columns: the
series labelled by the column labels. -/
theorem squeeze_one_row {f : Frame} (h1 : f.data.length = 1)
    (h2 : f.colIx.len ≠ 1) :
    f.squeeze =
      PdVal.series ⟨f.colIx.labels.zip (f.data.headD (toIdxT [], [])).2⟩ := by
  unfold Frame.squeeze
  rw [if_neg (by tauto), if_neg h2, if_pos h1]

/-- Whatever goes through `.squeeze()`, a frame only comes out when both its
dimensions exceed one. -/
theorem squeeze_frame_shape {w : PdVal} {f : Frame}
    (h : PdVal.squeeze w = PdVal.frame f) :
    f.colIx.len ≠ 1 ∧ f.data.length ≠ 1 := by
  cases w with
  | frame g =>
    simp only [PdVal.squeeze] at h
    unfold Frame.squeeze at h
    by_cases h1 : g.colIx.len = 1 ∧ g.data.length = 1
    · rw [if_pos h1] at h
      simp at h
    · rw [if_neg h1] at h
      by_cases h2 : g.colIx.len = 1
      · rw [if_pos h2] at h
        simp at h
      · rw [if_neg h2] at h
        by_cases h3 : g.data.length = 1
        · rw [if_pos h3] at h
          simp at h
        · rw [if_neg h3] at h
          have hg : g = f := by
            injection h
          subst hg
          exact ⟨h2, h3⟩
  | series s =>
    simp only [PdVal.squeeze] at h
    unfold Series.squeeze at h
    split at h
    · simp at h
    · simp at h
  | scalar c => simp [PdVal.squeeze] at h

/-- `.squeeze()` of a series: either the series itself or, when it has one
entry, its scalar. -/
theorem series_squeeze_cases (s : Series) :
    Series.squeeze s = PdVal.series s ∨
      ∃ c, Series.squeeze s = PdVal.scalar c := by
  unfold Series.squeeze
  split
  · rename_i d heq
    exact Or.inr ⟨d.2, rfl⟩
  · exact Or.inl rfl

/-! ### Index-preservation lemmas -/

/-- The time labels of a series of time-labelled values. -/
theorem tIdx_series_time (l : List (IdxT × List Cell))
    (g : IdxT × List Cell → Cell) :
    tIdx (PdVal.series ⟨l.map (fun d => (Label.time d.1, g d))⟩) =
      l.map Prod.fst := by
  induction l with
  | nil => rfl
  | cons a as ih =>
    simp only [List.map_cons, tIdx, List.filterMap_cons] at ih ⊢
    rw [ih]

/-- The time labels of a series zipped from column labels: none. -/
theorem tIdx_series_cols (ix : ColIx) (row : List Cell) :
    tIdx (PdVal.series ⟨ix.labels.zip row⟩) = [] := by
  simp only [tIdx]
  rw [List.filterMap_eq_nil_iff]
  intro a ha
  have hmem := (List.of_mem_zip ha).1
  cases ix with
  | flat ns =>
    simp only [ColIx.labels] at hmem
    rcases List.mem_map.mp hmem with ⟨n, _, hn⟩
    rw [← hn]
  | multi ls ts =>
    simp only [ColIx.labels] at hmem
    rcases List.mem_map.mp hmem with ⟨n, _, hn⟩
    rw [← hn]

/-- Squeezing never invents time labels: the time labels of the result
form a sublist of the time labels of the input. -/
theorem tIdx_squeeze_sublist (w : PdVal) :
    (tIdx (PdVal.squeeze w)).Sublist (tIdx w) := by
  cases w with
  | frame f =>
    show (tIdx f.squeeze).Sublist (tIdx (PdVal.frame f))
    unfold Frame.squeeze
    split_ifs with h1 h2 h3
    · simp [tIdx]
    · rw [tIdx_series_time f.data (fun d => d.2.headD Cell.nan)]
      exact List.Sublist.refl _
    · rw [tIdx_series_cols]
      exact List.nil_sublist _
    · exact List.Sublist.refl _
  | series s =>
    show (tIdx s.squeeze).Sublist (tIdx (PdVal.series s))
    rcases series_squeeze_cases s with h | ⟨c, h⟩
    · rw [h]
    · rw [h]
      exact List.nil_sublist _
  | scalar c => exact List.Sublist.refl _

/-- Column subsetting keeps the row index unchanged. -/
theorem selectCols_tIdx {f : Frame} {c : ColSel} {w : PdVal}
    (h : selectCols f c = Except.ok w) :
    tIdx w = f.data.map Prod.fst := by
  cases c with
  | all =>
    have hw : PdVal.frame f = w := (Except.ok.injEq _ _).mp h
    rw [← hw]
    rfl
  | one cn =>
    simp only [selectCols] at h
    unfold selectOne at h
    split at h
    · simp at h
    · split at h
      · have hw := (Except.ok.injEq _ _).mp h
        rw [← hw]
        exact tIdx_series_time f.data (fun d => d.2.getD _ Cell.nan)
      · have hw := (Except.ok.injEq _ _).mp h
        rw [← hw]
        simp [tIdx]
  | many cs =>
    simp only [selectCols] at h
    unfold selectMany at h
    split at h
    · simp at h
    · have hw := (Except.ok.injEq _ _).mp h
      rw [← hw]
      simp [tIdx]

/-! ### Truncation and conversion lemmas -/

/-- The successful case of `truncate`. -/
theorem truncateF_ok {f g : Frame} {b a : Timestamp}
    (h : truncateF f b a = Except.ok g) :
    g = ⟨f.colIx,
      f.data.filter (fun d =>
        b.minutes ≤ d.1.1.minutes && d.1.1.minutes ≤ a.minutes)⟩ := by
  unfold truncateF at h
  split at h
  · simp at h
  · exact ((Except.ok.injEq _ _).mp h).symm

/-! ### Structural lemmas about the pipeline stages -/

/-- A successful parse always produces a flat-column frame whose rows are the
output of `sort_index`. -/
theorem parseBody_ok_shape {resp : Response} {params : ParamSet} {F : Frame}
    (h : parseBody resp params = Except.ok F) :
    ∃ ns l, F = ⟨ColIx.flat ns, sortRows l⟩ := by
  unfold parseBody at h
  cases resp with
  | none => exact absurd h (by simp)
  | some records =>
    simp only at h
    split at h
    · exact absurd h (by simp)
    · split at h
      · exact absurd h (by simp)
      · split at h
        · exact absurd h (by simp)
        · rename_i valCols _
          exact ⟨valCols, _, ((Except.ok.injEq _ _).mp h).symm⟩

/-- The rows of a successfully parsed frame are sorted by the full index
tuple. -/
theorem parseBody_sorted {resp : Response} {params : ParamSet} {F : Frame}
    (h : parseBody resp params = Except.ok F) :
    F.data.Pairwise (fun p q => rowLe p q = true) := by
  rcases parseBody_ok_shape h with ⟨ns, l, rfl⟩
  exact pairwise_sortRows l

/-- When a filter parameter was sent, the surviving value columns never
contain the first key quoted in it. -/
theorem finalValCols_drops_first {cols timeCols dkCols : List String}
    {fs k : String} {v : List String}
    (hq : firstQuoted fs = some k)
    (h : finalValCols cols timeCols dkCols (some fs) = Except.ok v) :
    k ∉ v := by
  unfold finalValCols at h
  split at h
  · rename_i heq
    exact absurd heq (by simp)
  · rename_i k2 heq
    have hk2 : fs = k2 := by
      have := (Option.some.injEq _ _).mp heq
      exact this
    subst hk2
    rw [hq] at h
    simp only at h
    split at h
    · exact absurd h (by simp)
    · split at h
      · have hv : v = _ := ((Except.ok.injEq _ _).mp h).symm
        subst hv
        intro hmem
        have := List.of_mem_filter hmem
        simp at this
      · exact absurd h (by simp)

/-- A successfully parsed frame never carries the first key quoted in the
filter parameter as a column. -/
theorem parseBody_drops_first {resp : Response} {params : ParamSet} {F : Frame}
    {fs k : String}
    (hf : params.filter = some fs) (hq : firstQuoted fs = some k)
    (h : parseBody resp params = Except.ok F) :
    F.colIx.hasCol k = false := by
  unfold parseBody at h
  cases resp with
  | none => exact absurd h (by simp)
  | some records =>
    simp only at h
    split at h
    · exact absurd h (by simp)
    · split at h
      · exact absurd h (by simp)
      · split at h
        · exact absurd h (by simp)
        · rename_i valCols heq
          rw [hf] at heq
          have hk : k ∉ valCols := finalValCols_drops_first hq heq
          have hF : F = ⟨ColIx.flat valCols, _⟩ := ((Except.ok.injEq _ _).mp h).symm
          subst hF
          simpa [ColIx.hasCol] using hk



/-- Every successful `_select_columns_request` is a squeeze of an
intermediate value. -/
theorem selectColumnsRequest_ok_squeeze {http : String → ParamSet → Response}
    {url : String} {start stop : Timestamp} {columns : ColSel}
    {filters : List (String × PyVal)} {v : PdVal}
    (h : selectColumnsRequest http url start stop columns filters =
      Except.ok v) :
    ∃ w, v = PdVal.squeeze w := by
  unfold selectColumnsRequest at h
  split at h
  · simp at h
  · split at h
    · simp at h
    · split at h
      · simp at h
      · rename_i w hsel
        exact ⟨w, ((Except.ok.injEq _ _).mp h).symm⟩

/-- The index contract of `_select_columns_request`: whatever it returns,
the first-level time labels are sorted ascending, tagged with the zone of
`start`, and lie in the closed interval from `start` to `stop`. -/
theorem selectColumnsRequest_index {http : String → ParamSet → Response}
    {url : String} {start stop : Timestamp} {columns : ColSel}
    {filters : List (String × PyVal)} {v : PdVal}
    (h : selectColumnsRequest http url start stop columns filters =
      Except.ok v) :
    (tIdx v).Pairwise (fun a b => a.1.minutes ≤ b.1.minutes) ∧
      ∀ i ∈ tIdx v, i.1.tz = start.tz ∧ start.minutes ≤ i.1.minutes ∧
        i.1.minutes ≤ stop.minutes := by
  unfold selectColumnsRequest at h
  split at h
  · simp at h
  · rename_i df0 hbase
    split at h
    · simp at h
    · rename_i df2 htr
      split at h
      · simp at h
      · rename_i w hsel
        have hv : PdVal.squeeze w = v := (Except.ok.injEq _ _).mp h
        unfold baseRequest at hbase
        have hsorted0 := parseBody_sorted hbase
        obtain rfl := truncateF_ok htr
        -- the sublist chain from the final labels down to the truncated rows
        have hsub1 : (tIdx v).Sublist (tIdx w) := by
          rw [← hv]
          exact tIdx_squeeze_sublist w
        have hidx : tIdx w = _ := selectCols_tIdx hsel
        rw [hidx] at hsub1
        -- sortedness of the truncated, converted rows
        have hP1 : (tzConvertL0 df0 start.tz).data.Pairwise
            (fun p q => p.1.1.minutes ≤ q.1.1.minutes) := by
          unfold tzConvertL0
          exact List.pairwise_map.mpr (hsorted0.imp (fun hpq => rowLe_head hpq))
        have hP2 : ((tzConvertL0 df0 start.tz).data.filter
            (fun d => start.minutes ≤ d.1.1.minutes &&
              d.1.1.minutes ≤ stop.minutes)).Pairwise
            (fun p q => p.1.1.minutes ≤ q.1.1.minutes) :=
          List.Pairwise.sublist (List.filter_sublist _) hP1
        have hP3 : (((tzConvertL0 df0 start.tz).data.filter
            (fun d => start.minutes ≤ d.1.1.minutes &&
              d.1.1.minutes ≤ stop.minutes)).map Prod.fst).Pairwise
            (fun a b => a.1.minutes ≤ b.1.minutes) :=
          List.pairwise_map.mpr hP2
        constructor
        · exact List.Pairwise.sublist hsub1 hP3
        · intro i hi
          have hi2 := hsub1.subset hi
          rcases List.mem_map.mp hi2 with ⟨d, hd, rfl⟩
          have hpred := List.of_mem_filter hd
          have hmemconv := List.mem_of_mem_filter hd
          have htz : d.1.1.tz = start.tz := by
            unfold tzConvertL0 at hmemconv
            rcases List.mem_map.mp hmemconv with ⟨d0, _, rfl⟩
            rfl
          refine ⟨htz, ?_, ?_⟩
          · have := (Bool.and_eq_true _ _).mp hpred
            exact of_decide_eq_true this.1
          · have := (Bool.and_eq_true _ _).mp hpred
            exact of_decide_eq_true this.2

/-- Every successful `_pivot_request` is a squeeze of an intermediate
value. -/
theorem pivotRequest_ok_squeeze {http : String → ParamSet → Response}
    {url : String} {start stop : Timestamp} {columns : ColSel}
    {filters : List (String × PyVal)} {v : PdVal}
    (h : pivotRequest http url start stop columns filters = Except.ok v) :
    ∃ w, v = PdVal.squeeze w := by
  unfold pivotRequest at h
  split at h
  · simp at h
  · split at h
    · simp at h
    · split at h
      · simp at h
      · rename_i w hcol
        exact ⟨w, ((Except.ok.injEq _ _).mp h).symm⟩

/-- A response whose records carry no UTC-suffixed field makes the parse
fail with the `set_index`/`to_datetime` `ValueError`. -/
theorem parseBody_noUTC {rs : List RecordF} {params : ParamSet}
    (h : (unionKeys rs).filter (fun c => hasUTC c) = []) :
    parseBody (some rs) params = Except.error PErr.valueError := by
  cases rs with
  | nil => rfl
  | cons r rest =>
    unfold parseBody
    dsimp only
    rw [h]
    rfl

/-- Reduction of `_select_columns_request` past a successful request. -/
theorem selectColumnsRequest_reduce {http : String → ParamSet → Response}
    {url : String} {start stop : Timestamp} {columns : ColSel}
    {filters : List (String × PyVal)} {df0 : Frame}
    (hbase : baseRequest http url (getParams start stop filters) =
      Except.ok df0) :
    selectColumnsRequest http url start stop columns filters =
      match truncateF (tzConvertL0 df0 start.tz) start stop with
      | Except.error e => Except.error e
      | Except.ok df2 =>
        match selectCols df2 columns with
        | Except.error e => Except.error e
        | Except.ok v => Except.ok v.squeeze := by
  unfold selectColumnsRequest
  rw [hbase]

/-- With equal bounds the pipeline still returns normally whenever the parse
of the (issued) request succeeds: there is no range validation. -/
theorem selectColumnsRequest_eq_bounds {http : String → ParamSet → Response}
    {url : String} {s : Timestamp} {fs : List (String × PyVal)} {F : Frame}
    (hbase : baseRequest http url (getParams s s fs) = Except.ok F) :
    ∃ v, selectColumnsRequest http url s s ColSel.all fs = Except.ok v := by
  rw [selectColumnsRequest_reduce hbase]
  unfold truncateF
  rw [if_neg (by omega : ¬s.minutes < s.minutes)]
  exact ⟨_, rfl⟩

/-- With inverted bounds the pipeline fails only after the request, at
`truncate`, with a `ValueError`. -/
theorem selectColumnsRequest_inverted_bounds
    {http : String → ParamSet → Response} {url : String} {s e : Timestamp}
    {fs : List (String × PyVal)} {F : Frame}
    (hbase : baseRequest http url (getParams s e fs) = Except.ok F)
    (hlt : e.minutes < s.minutes) (cs : ColSel) :
    selectColumnsRequest http url s e cs fs = Except.error PErr.valueError := by
  rw [selectColumnsRequest_reduce hbase]
  unfold truncateF
  rw [if_pos hlt]

/-- When the full fetch has already squeezed the table away from frame form,
`_pivot_request` neither pivots nor subsets: for every `columns` argument it
returns the squeeze of that same value, which is the value itself unless it
is a one-entry series (then its scalar). -/
theorem pivotRequest_series_skip {http : String → ParamSet → Response}
    {url : String} {start stop : Timestamp} {fs : List (String × PyVal)}
    {v : PdVal}
    (hsel : selectColumnsRequest http url start stop ColSel.all fs =
      Except.ok v)
    (hnf : v.isFrame = false) (cs : ColSel) :
    pivotRequest http url start stop cs fs = Except.ok v.squeeze ∧
      (PdVal.squeeze v = v ∨ (PdVal.squeeze v).isScalar = true) := by
  constructor
  · unfold pivotRequest
    rw [hsel]
    cases v with
    | frame f => simp [PdVal.isFrame] at hnf
    | series s => rfl
    | scalar c => rfl
  · cases v with
    | frame f => simp [PdVal.isFrame] at hnf
    | series s =>
      rcases series_squeeze_cases s with h | ⟨c, h⟩
      · exact Or.inl h
      · right
        rw [show PdVal.squeeze (PdVal.series s) = s.squeeze from rfl, h]
        rfl
    | scalar c => exact Or.inl rfl

/-! ### The code filter string versus the spec object -/

theorem quotedJoin (v : String) (vs : List String) :
    "\"" ++ joinSep "\",\"" (v :: vs) ++ "\"" =
      joinSep "," ((v :: vs).map (fun x => "\"" ++ x ++ "\"")) := by
  induction vs generalizing v with
  | nil => rfl
  | cons w ws ih =>
    have h1 : joinSep "\",\"" (v :: w :: ws) =
        v ++ "\",\"" ++ joinSep "\",\"" (w :: ws) := rfl
    have h2 : joinSep "," ((v :: w :: ws).map (fun x => "\"" ++ x ++ "\"")) =
        ("\"" ++ v ++ "\"") ++ "," ++
          joinSep "," ((w :: ws).map (fun x => "\"" ++ x ++ "\"")) := rfl
    rw [h1, h2, ← ih w]
    rw [show ("\",\"" : String) = "\"" ++ ("," ++ "\"") from rfl]
    simp only [String.append_assoc]

/-- On a nonempty value list the f-string entry of the code equals the
JSON-like field of the spec. -/
theorem entry_eq (k v : String) (vs : List String) :
    filterEntry k (v :: vs) = renderEntry (k, v :: vs) := by
  unfold filterEntry renderEntry
  rw [← quotedJoin]
  rw [show ("\":[\"" : String) = "\":[" ++ "\"" from rfl]
  rw [show ("\"]" : String) = "\"" ++ "]" from rfl]
  simp only [String.append_assoc]

/-- Under well-formed values the serialized pieces of the code are exactly
the spec entries, rendered. -/
theorem filterPieces_spec (fs : List (String × PyVal))
    (h : ∀ kv ∈ fs, wellFormed kv.2 = true) :
    filterPieces fs = (specEntries fs).map renderEntry := by
  induction fs with
  | nil => rfl
  | cons kv rest ih =>
    have hkv : wellFormed kv.2 = true := h kv (List.mem_cons_self kv rest)
    have hrest : ∀ x ∈ rest, wellFormed x.2 = true :=
      fun x hx => h x (List.mem_cons_of_mem kv hx)
    cases hv : kv.2 with
    | none =>
      simp only [filterPieces, specEntries, List.filterMap_cons, hv]
      exact ih hrest
    | scalar v =>
      simp only [filterPieces, specEntries, List.filterMap_cons, hv,
        List.map_cons]
      rw [entry_eq]
      exact congrArg _ (ih hrest)
    | list vs =>
      cases vs with
      | nil =>
        rw [hv] at hkv
        simp [wellFormed] at hkv
      | cons v vt =>
        simp only [filterPieces, specEntries, List.filterMap_cons, hv,
          List.map_cons]
        rw [entry_eq]
        exact congrArg _ (ih hrest)

/-- Refinement of the filter parameter: under well-formed values the code
emits exactly the JSON-like object of the spec, and no parameter when every
value is `None`. -/
theorem getParams_filter_spec (s e : Timestamp) (fs : List (String × PyVal))
    (h : ∀ kv ∈ fs, wellFormed kv.2 = true) :
    (getParams s e fs).filter = specFilterObject fs := by
  have hmap := filterPieces_spec fs h
  unfold getParams specFilterObject
  dsimp only
  rw [hmap]
  cases hE : specEntries fs with
  | nil => simp
  | cons a t => simp

/-! ### Claims -/

/-- C1 counterexample: with a response carrying two UTC timestamp columns,
the returned index contains second-level timestamps outside the requested
closed interval and still tagged UTC rather than with the zone of the range
start, refuting the claim as stated over the whole time index. -/
theorem c1_counterexample :
    selectColumnsRequest httpC1 "u" ⟨0, "CET"⟩ ⟨120, "CET"⟩ ColSel.all [] =
      Except.ok (PdVal.frame c1Frame) ∧
    ((idxTimestamps c1Frame).all (fun t =>
      decide (t.tz = "CET") && (decide ((0 : Int) ≤ t.minutes) &&
        decide (t.minutes ≤ (120 : Int))))) = false := by
  constructor
  · rfl
  · decide

/-- C1 (amended): for every valid call to `_select_columns_request`, the
first (primary) level of the returned time index is sorted ascending,
expressed in the zone of the range start, and lies in the closed interval
from start to end; a second time level keeps UTC and is not truncated. -/
theorem c1_amended :
    ∀ (http : String → ParamSet → Response) (url : String)
      (start stop : Timestamp) (columns : ColSel)
      (filters : List (String × PyVal)) (v : PdVal),
      selectColumnsRequest http url start stop columns filters =
        Except.ok v →
      (tIdx v).Pairwise (fun a b => a.1.minutes ≤ b.1.minutes) ∧
        ∀ i ∈ tIdx v, i.1.tz = start.tz ∧ start.minutes ≤ i.1.minutes ∧
          i.1.minutes ≤ stop.minutes :=
  fun _ _ _ _ _ _ _ h => selectColumnsRequest_index h

/-- C1 witness: the amended contract evaluated on the two-level stub. -/
theorem c1_amended_witness :
    (tIdx (PdVal.frame c1Frame)).Pairwise
      (fun a b => a.1.minutes ≤ b.1.minutes) ∧
      ∀ i ∈ tIdx (PdVal.frame c1Frame),
        i.1.tz = (⟨0, "CET"⟩ : Timestamp).tz ∧
          (⟨0, "CET"⟩ : Timestamp).minutes ≤ i.1.minutes ∧
          i.1.minutes ≤ (⟨120, "CET"⟩ : Timestamp).minutes :=
  c1_amended httpC1 "u" ⟨0, "CET"⟩ ⟨120, "CET"⟩ ColSel.all []
    (PdVal.frame c1Frame) rfl

/-- C2 counterexample: a call whose final table has exactly one remaining
value column (and one row) returns a bare scalar, not a flat series. -/
theorem c2_counterexample :
    selectColumnsRequest httpC2 "u" ⟨0, "CET"⟩ ⟨60, "CET"⟩ ColSel.all [] =
      Except.ok (PdVal.scalar (Cell.s "5")) ∧
    c2Frame.colIx.len = 1 ∧
    Frame.squeeze c2Frame = PdVal.scalar (Cell.s "5") ∧
    PdVal.isSeries (PdVal.scalar (Cell.s "5")) = false := by
  refine ⟨rfl, by decide, by decide, by decide⟩

/-- C2 (amended): neither request helper ever returns a one-column frame;
with exactly one remaining value column the squeeze yields the flat
time-indexed series when more than one (or zero) rows remain, and a bare
scalar when exactly one row remains — identically in both operations, which
share the final squeeze. -/
theorem c2_amended :
    (∀ (http : String → ParamSet → Response) (url : String)
      (s e : Timestamp) (cs : ColSel) (fs : List (String × PyVal))
      (f : Frame),
      selectColumnsRequest http url s e cs fs =
        Except.ok (PdVal.frame f) → f.colIx.len ≠ 1) ∧
    (∀ (http : String → ParamSet → Response) (url : String)
      (s e : Timestamp) (cs : ColSel) (fs : List (String × PyVal))
      (f : Frame),
      pivotRequest http url s e cs fs =
        Except.ok (PdVal.frame f) → f.colIx.len ≠ 1) ∧
    (∀ f : Frame, f.colIx.len = 1 → f.data.length ≠ 1 →
      f.squeeze = PdVal.series
        ⟨f.data.map (fun d => (Label.time d.1, d.2.headD Cell.nan))⟩) ∧
    (∀ f : Frame, f.colIx.len = 1 → f.data.length = 1 →
      f.squeeze =
        PdVal.scalar (((f.data.headD (toIdxT [], [])).2).headD Cell.nan)) := by
  refine ⟨?_, ?_, ?_, ?_⟩
  · intro http url s e cs fs f h
    rcases selectColumnsRequest_ok_squeeze h with ⟨w, hw⟩
    exact (squeeze_frame_shape hw.symm).1
  · intro http url s e cs fs f h
    rcases pivotRequest_ok_squeeze h with ⟨w, hw⟩
    exact (squeeze_frame_shape hw.symm).1
  · intro f h1 h2
    exact squeeze_one_col h1 h2
  · intro f h1 h2
    exact squeeze_one_one h1 h2

/-- C2 witness: the squeeze rule evaluated on a one-column two-row frame and
on the one-by-one frame. -/
theorem c2_amended_witness :
    Frame.squeeze oneColFrame =
      PdVal.series
        ⟨[(Label.time (⟨0, "CET"⟩, []), Cell.s "1"),
          (Label.time (⟨60, "CET"⟩, []), Cell.s "2")]⟩ ∧
    Frame.squeeze c2Frame = PdVal.scalar (Cell.s "5") :=
  ⟨c2_amended.2.2.1 oneColFrame (by decide) (by decide),
   c2_amended.2.2.2 c2Frame (by decide) (by decide)⟩

/-- C3: the singleton-level collapse loop crashes instead of collapsing: on
a pivoted table whose column MultiIndex is a singleton value-column level
over a two-area level (the CO2 endpoint without an area filter), dropping
level 0 turns the columns into a flat Index and the next iteration reads
`.levels` off it, raising `AttributeError`. -/
theorem c3_collapse_crash :
    pivotRequest httpCO2 "u" ⟨0, "CET"⟩ ⟨120, "CET"⟩ ColSel.all
      [("PriceArea", PyVal.none)] = Except.error PErr.attributeError := by
  rfl

/-- C4: with two non-`None` filters only the column of the first key is
dropped by `_base_request`, so the second key (`ForecastType`, whose filter
value is the scalar "Offshore Wind", not `None`) is still a column and is
selected as a pivot axis, contradicting the docstring, which promises
pivoting only around keys whose values are None. -/
theorem c4_nonnull_key_pivoted :
    selectColumnsRequest httpRF "u" ⟨0, "CET"⟩ ⟨120, "CET"⟩ ColSel.all
        rfFilters = Except.ok (PdVal.frame rfFrame) ∧
    pivotKeys rfFilters rfFrame.colIx = ["ForecastType"] ∧
    rfFilters.lookup "ForecastType" = some (PyVal.scalar "Offshore Wind") := by
  refine ⟨rfl, by decide, rfl⟩

/-- C5 counterexample: a filter expression naming the keys `A` and `B`
leads to a parsed table that still carries the discriminator column `B` —
only the first quoted key is dropped. -/
theorem c5_counterexample :
    c5Params.filter = some "\x7b\"A\":[\"x\"],\"B\":[\"y\"]\x7d" ∧
    baseRequest httpC5 "u" c5Params = Except.ok c5Frame ∧
    c5Frame.colIx.hasCol "B" = true := by
  refine ⟨by decide, rfl, by decide⟩

/-- C5 (amended): whenever a filter parameter was sent, `_base_request`
drops the column of the FIRST key quoted in the filter expression (and only
that one): the first key never appears among the output columns. -/
theorem c5_amended :
    ∀ (http : String → ParamSet → Response) (url : String)
      (params : ParamSet) (F : Frame) (fs k : String),
      params.filter = some fs → firstQuoted fs = some k →
      baseRequest http url params = Except.ok F →
      F.colIx.hasCol k = false := by
  intro http url params F fs k hf hq h
  unfold baseRequest at h
  exact parseBody_drops_first hf hq h

/-- C5 witness: on the two-key stub the first key `A` is indeed gone. -/
theorem c5_amended_witness : c5Frame.colIx.hasCol "A" = false :=
  c5_amended httpC5 "u" c5Params c5Frame
    "\x7b\"A\":[\"x\"],\"B\":[\"y\"]\x7d" "A" (by decide) (by decide)
    rfl

/-- C6 counterexample: with `start = end` no error is raised at all: the
request is issued and the row at exactly `start` comes back (here squeezed
to a scalar), refuting "InvalidRangeError before any network call". -/
theorem c6_counterexample :
    selectColumnsRequest httpC6 "u" ⟨0, "CET"⟩ ⟨0, "CET"⟩ ColSel.all [] =
      Except.ok (PdVal.scalar (Cell.s "10")) := by
  rfl

/-- C6 (amended): the pipeline performs no range validation before the
request: whenever the issued request parses, equal bounds still return
normally (truncation keeps the rows at exactly `start`), and strictly
inverted bounds fail only afterwards, at `truncate`, with a `ValueError`. -/
theorem c6_amended :
    ∀ (http : String → ParamSet → Response) (url : String)
      (s e : Timestamp) (fs : List (String × PyVal)) (F : Frame),
      baseRequest http url (getParams s e fs) = Except.ok F →
      ((s.minutes = e.minutes →
        ∃ v, selectColumnsRequest http url s e ColSel.all fs =
          Except.ok v) ∧
       (e.minutes < s.minutes → ∀ cs,
        selectColumnsRequest http url s e cs fs =
          Except.error PErr.valueError)) := by
  intro http url s e fs F hbase
  constructor
  · intro hm
    rw [selectColumnsRequest_reduce hbase]
    unfold truncateF
    rw [if_neg (by omega : ¬e.minutes < s.minutes)]
    exact ⟨_, rfl⟩
  · intro hlt cs
    rw [selectColumnsRequest_reduce hbase]
    unfold truncateF
    rw [if_pos hlt]

/-- C6 witness: inverted bounds reach `truncate` after the request and fail
there with the `ValueError`. -/
theorem c6_amended_witness :
    selectColumnsRequest httpC6 "u" ⟨60, "CET"⟩ ⟨0, "CET"⟩ ColSel.all [] =
      Except.error PErr.valueError :=
  (c6_amended httpC6 "u" ⟨60, "CET"⟩ ⟨0, "CET"⟩ [] c6Frame rfl).2
    (by decide) ColSel.all

/-- C7 counterexample: an entry whose value is the empty list is serialized
by the code as the one-element array of the empty string, not as the empty
array of permitted values the spec object prescribes. -/
theorem c7_counterexample :
    (getParams ⟨0, "CET"⟩ ⟨60, "CET"⟩ [("A", PyVal.list [])]).filter =
      some "\x7b\"A\":[\"\"]\x7d" ∧
    specFilterObject [("A", PyVal.list [])] = some "\x7b\"A\":[]\x7d" ∧
    (getParams ⟨0, "CET"⟩ ⟨60, "CET"⟩ [("A", PyVal.list [])]).filter ≠
      specFilterObject [("A", PyVal.list [])] := by
  refine ⟨by decide, by decide, by decide⟩

/-- C7 (amended): for every filter mapping whose non-`None` values are
scalars or nonempty lists, `_get_params` emits exactly the single JSON-like
filter object of the spec (scalar as one-element array, `None` entries
contributing nothing), and no filter parameter when no non-`None` entry
exists. -/
theorem c7_amended :
    ∀ (s e : Timestamp) (fs : List (String × PyVal)),
      (∀ kv ∈ fs, wellFormed kv.2 = true) →
      (getParams s e fs).filter = specFilterObject fs :=
  fun s e fs h => getParams_filter_spec s e fs h

/-- C7 witness: the refinement evaluated on a representative mapping with a
scalar, a `None` and a two-element list value. -/
theorem c7_amended_witness :
    (getParams ⟨0, "CET"⟩ ⟨60, "CET"⟩ fsC7).filter = specFilterObject fsC7 :=
  c7_amended ⟨0, "CET"⟩ ⟨60, "CET"⟩ fsC7 (by decide)

/-- C8: a response without the `records` list, or whose records carry no
UTC-suffixed timestamp field, makes `_select_columns_request` fail with the
parse error the spec calls `MalformedResponseError`, and no table is
returned. -/
theorem c8_malformed :
    ∀ (http : String → ParamSet → Response) (url : String)
      (s e : Timestamp) (cs : ColSel) (fs : List (String × PyVal)),
      (http url (getParams s e fs) = Option.none ∨
        ∃ rs, http url (getParams s e fs) = some rs ∧
          (unionKeys rs).filter (fun c => hasUTC c) = []) →
      ∃ er, selectColumnsRequest http url s e cs fs = Except.error er ∧
        MalformedResponse er := by
  intro http url s e cs fs h
  rcases h with hnone | ⟨rs, hsome, hutc⟩
  · refine ⟨PErr.keyError, ?_, Or.inl rfl⟩
    unfold selectColumnsRequest baseRequest
    rw [hnone]
    rfl
  · refine ⟨PErr.valueError, ?_, Or.inr rfl⟩
    unfold selectColumnsRequest baseRequest
    rw [hsome, parseBody_noUTC hutc]

/-- C8 witness: the stub without a `records` list fails as claimed. -/
theorem c8_witness :
    ∃ er, selectColumnsRequest httpNone "u" ⟨0, "CET"⟩ ⟨60, "CET"⟩
        ColSel.all [] = Except.error er ∧ MalformedResponse er :=
  c8_malformed httpNone "u" ⟨0, "CET"⟩ ⟨60, "CET"⟩ ColSel.all [] (Or.inl rfl)

/-- C9: when the full fetch already squeezed the table to a non-frame,
`_pivot_request` attempts no pivot and silently ignores the `columns`
argument: for every column selection it returns the squeeze of that same
value, which is the value itself unless the series has exactly one entry. -/
theorem c9_series_ignores_columns :
    ∀ (http : String → ParamSet → Response) (url : String)
      (s e : Timestamp) (fs : List (String × PyVal)) (v : PdVal),
      selectColumnsRequest http url s e ColSel.all fs = Except.ok v →
      v.isFrame = false →
      ∀ cs, pivotRequest http url s e cs fs = Except.ok v.squeeze ∧
        (PdVal.squeeze v = v ∨ (PdVal.squeeze v).isScalar = true) :=
  fun _ _ _ _ _ _ hsel hnf cs => pivotRequest_series_skip hsel hnf cs

/-- C9 witness: a pivot call asking for a specific column on an
already-squeezed series returns the series untouched. -/
theorem c9_witness :
    pivotRequest httpC9 "u" ⟨0, "CET"⟩ ⟨120, "CET"⟩
        (ColSel.one "CO2Emission") [("PriceArea", PyVal.scalar "DK1")] =
      Except.ok c9Series.squeeze ∧
    (PdVal.squeeze c9Series = c9Series ∨
      (PdVal.squeeze c9Series).isScalar = true) :=
  c9_series_ignores_columns httpC9 "u" ⟨0, "CET"⟩ ⟨120, "CET"⟩
    [("PriceArea", PyVal.scalar "DK1")] c9Series rfl rfl
    (ColSel.one "CO2Emission")

/-- C10: the squeeze applies to both axes: neither request helper ever
returns a one-row frame; a one-row multi-column table squeezes to the
series labelled by its column labels, and a one-row one-column table to a
bare scalar. -/
theorem c10_squeeze_both_axes :
    (∀ (http : String → ParamSet → Response) (url : String)
      (s e : Timestamp) (cs : ColSel) (fs : List (String × PyVal))
      (f : Frame),
      selectColumnsRequest http url s e cs fs =
        Except.ok (PdVal.frame f) → f.data.length ≠ 1) ∧
    (∀ (http : String → ParamSet → Response) (url : String)
      (s e : Timestamp) (cs : ColSel) (fs : List (String × PyVal))
      (f : Frame),
      pivotRequest http url s e cs fs =
        Except.ok (PdVal.frame f) → f.data.length ≠ 1) ∧
    (∀ f : Frame, f.data.length = 1 → f.colIx.len ≠ 1 →
      f.squeeze = PdVal.series
        ⟨f.colIx.labels.zip (f.data.headD (toIdxT [], [])).2⟩) ∧
    (∀ f : Frame, f.data.length = 1 → f.colIx.len = 1 →
      f.squeeze =
        PdVal.scalar (((f.data.headD (toIdxT [], [])).2).headD Cell.nan)) := by
  refine ⟨?_, ?_, ?_, ?_⟩
  · intro http url s e cs fs f h
    rcases selectColumnsRequest_ok_squeeze h with ⟨w, hw⟩
    exact (squeeze_frame_shape hw.symm).2
  · intro http url s e cs fs f h
    rcases pivotRequest_ok_squeeze h with ⟨w, hw⟩
    exact (squeeze_frame_shape hw.symm).2
  · intro f h1 h2
    exact squeeze_one_row h1 h2
  · intro f h1 h2
    exact squeeze_one_one h2 h1

/-- C10 witness: the one-row two-column frame squeezes to the column-name
labelled series. -/
theorem c10_witness :
    Frame.squeeze oneRowFrame =
      PdVal.series
        ⟨[(Label.name "A", Cell.s "1"), (Label.name "B", Cell.s "2")]⟩ :=
  c10_squeeze_both_axes.2.2.1 oneRowFrame (by decide) (by decide)
